import Mathlib

/-!
# Verification of the ai-studio script-mutation and storage subsystems

Shallow embedding of:

* `src/video/lib/applyToolCall.ts` — the pure tool-dispatch engine for the
  video-editing chat assistant (`applyToolCall`, `makeShot`), together with
  `DEFAULT_VIDEO_DURATION` from `src/video/lib/config.ts`.
* the call-site logic of `parseLyricsResponse` / assistant-message creation in
  the LyricsGenerator page.
* the storage layer (`createMessage`, `getAncestors`, `export`, `import`),
  whose implementation file is not part of the sources at hand; those
  definitions are modelled from the specification (see the doc comments).

JavaScript values arriving in a tool call's `args` map are untyped; they are
embedded as the inductive `JSValue`.  The impure id generator
(`Date.now()` + `Math.random()`) is modelled by passing the fresh id to
`applyToolCall` explicitly.  All functions are total: the original code never
throws on malformed input, and the embedding mirrors that by returning the
unchanged script in every fail-soft branch.
-/

set_option autoImplicit false

namespace AiStudio

/-- Audio source enum: `"video" | "elevenlabs"` (`AudioSource` in storage types,
as used by `applyToolCall.ts`). -/
inductive AudioSource where
  | video
  | elevenlabs
deriving DecidableEq, Repr

/-- `Shot.narration`: `{enabled, text, audioSource}`. -/
structure Narration where
  enabled : Bool
  text : String
  audioSource : AudioSource
deriving DecidableEq, Repr

/-- `Shot.video`: `{selectedUrl, history}`. -/
structure VideoInfo where
  selectedUrl : Option String
  history : List String
deriving DecidableEq, Repr

/-- `Shot`: `{id, title, prompt, narration, video, subtitles, duration}`. -/
structure Shot where
  id : String
  title : String
  prompt : String
  narration : Narration
  video : VideoInfo
  subtitles : Bool
  duration : Nat
deriving DecidableEq, Repr

/-- `Script.settings`: `{narrationEnabled, subtitles, globalPrompt}` plus the
`defaultAudio` field read by `makeShot` in `applyToolCall.ts`. -/
structure ScriptSettings where
  narrationEnabled : Bool
  subtitles : Bool
  globalPrompt : String
  defaultAudio : AudioSource
deriving DecidableEq, Repr

/-- `Script`: `{id, title, shots, settings, createdAt, updatedAt}`. -/
structure Script where
  id : String
  title : String
  shots : List Shot
  settings : ScriptSettings
  createdAt : String
  updatedAt : String
deriving DecidableEq, Repr

/-- An untyped JavaScript value as it may appear in a tool call's parsed
`args : Record<string, unknown>` map. -/
inductive JSValue where
  | vstr : String → JSValue
  | vbool : Bool → JSValue
  | vnum : Int → JSValue
  | varr : List JSValue → JSValue
  | vnull : JSValue
deriving Repr

/-- A tool call's argument map.  A key that is absent behaves like JavaScript
`undefined` (`getArg` returns `none`). -/
abbrev Args := List (String × JSValue)

/-- Property access `args.k`: the value of the first binding of key `k`,
`none` when the key is absent (JavaScript `undefined`). -/
def getArg (args : Args) (k : String) : Option JSValue :=
  (args.find? (fun p => p.1 == k)).map (fun p => p.2)

/-- `DEFAULT_VIDEO_DURATION` from `src/video/lib/config.ts`. -/
def DEFAULT_VIDEO_DURATION : Nat := 8

/-- `makeShot(title, prompt, script)` — the generated id is passed explicitly
(the source calls the impure `generateId()`). -/
def makeShot (freshId : String) (title : String) (prompt : String) (script : Script) : Shot :=
  { id := freshId
    title := title
    prompt := prompt
    narration :=
      { enabled := script.settings.narrationEnabled
        text := ""
        audioSource := script.settings.defaultAudio }
    video := { selectedUrl := none, history := [] }
    subtitles := script.settings.subtitles
    duration := DEFAULT_VIDEO_DURATION }

/-- `new Map(script.shots.map(s => [s.id, s])).get(id)`: a JavaScript `Map`
built from an entry list keeps the **last** entry for a duplicated key, so the
lookup returns the last shot bearing the id. -/
def shotMapGet (shots : List Shot) (id : String) : Option Shot :=
  shots.reverse.find? (fun s => s.id == id)

/-- The string entries of the `shotIds` array
(`.filter((id): id is string => typeof id === "string")`). -/
def stringIds (l : List JSValue) : List String :=
  l.filterMap (fun v => match v with | .vstr s => some s | _ => none)

/-- The `reorder_shots` resolution pipeline:
`.map(id => shotMap.get(id)).filter(s => s !== undefined)`. -/
def resolveShots (shots : List Shot) (l : List JSValue) : List Shot :=
  (stringIds l).filterMap (shotMapGet shots)

/-- The per-field merge of the `update_shot_narration` case.  The source copies
the narration and then runs three independent `if`s, each overwriting one
distinct field when its argument has the right type; since each `if` touches a
different field of the copy, the sequence is exactly this record. -/
def mergeNarration (n : Narration) (enabled text audioSource : Option JSValue) : Narration :=
  { enabled := match enabled with
      | some (.vbool b) => b
      | _ => n.enabled
    text := match text with
      | some (.vstr t) => t
      | _ => n.text
    audioSource := match audioSource with
      | some (.vstr "video") => .video
      | some (.vstr "elevenlabs") => .elevenlabs
      | _ => n.audioSource }

/-- The per-field merge of the `update_script_settings` case; the source's
three independent `if`s each overwrite one distinct field of the copied
settings object, which is exactly this record. -/
def mergeSettings (st : ScriptSettings) (narrationEnabled subtitles globalPrompt : Option JSValue) :
    ScriptSettings :=
  { narrationEnabled := match narrationEnabled with
      | some (.vbool b) => b
      | _ => st.narrationEnabled
    subtitles := match subtitles with
      | some (.vbool b) => b
      | _ => st.subtitles
    globalPrompt := match globalPrompt with
      | some (.vstr p) => p
      | _ => st.globalPrompt
    defaultAudio := st.defaultAudio }

/-- `applyToolCall(script, toolName, args)` from `src/video/lib/applyToolCall.ts`.
`freshId` stands for the value `generateId()` would produce in the `add_shot`
case (the only impure part of the source function).  The `switch` statement is
embedded as a first-match chain over the tool name. -/
def applyToolCall (freshId : String) (script : Script) (toolName : String) (args : Args) : Script :=
  if toolName = "update_shot_prompt" then
    match getArg args "shotId", getArg args "prompt" with
    | some (.vstr shotId), some (.vstr prompt) =>
      { script with shots := script.shots.map (fun s =>
          if s.id == shotId then { s with prompt := prompt } else s) }
    | _, _ => script
  else if toolName = "update_shot_narration" then
    match getArg args "shotId" with
    | some (.vstr shotId) =>
      { script with shots := script.shots.map (fun s =>
          if s.id == shotId then
            { s with narration := mergeNarration s.narration (getArg args "enabled") (getArg args "text") (getArg args "audioSource") }
          else s) }
    | _ => script
  else if toolName = "update_shot_subtitles" then
    match getArg args "shotId", getArg args "subtitles" with
    | some (.vstr shotId), some (.vbool subtitles) =>
      { script with shots := script.shots.map (fun s =>
          if s.id == shotId then { s with subtitles := subtitles } else s) }
    | _, _ => script
  else if toolName = "add_shot" then
    match getArg args "title", getArg args "prompt" with
    | some (.vstr title), some (.vstr prompt) =>
      let newShot := makeShot freshId title prompt script
      match getArg args "afterShotId" with
      | some (.vstr afterShotId) =>
        match script.shots.findIdx? (fun s => s.id == afterShotId) with
        | some idx =>
          { script with shots :=
              script.shots.take (idx + 1) ++ newShot :: script.shots.drop (idx + 1) }
        | none => { script with shots := script.shots ++ [newShot] }
      | _ => { script with shots := script.shots ++ [newShot] }
    | _, _ => script
  else if toolName = "delete_shot" then
    match getArg args "shotId" with
    | some (.vstr shotId) =>
      { script with shots := script.shots.filter (fun s => ¬ (s.id == shotId)) }
    | _ => script
  else if toolName = "reorder_shots" then
    match getArg args "shotIds" with
    | some (.varr shotIds) =>
      if (resolveShots script.shots shotIds).length = script.shots.length then
        { script with shots := resolveShots script.shots shotIds }
      else script
    | _ => script
  else if toolName = "update_script_settings" then
    { script with settings := mergeSettings script.settings (getArg args "narrationEnabled") (getArg args "subtitles") (getArg args "globalPrompt") }
  else
    script

/-- The seven tool names recognized by the `switch` in `applyToolCall`. -/
def recognizedTools : List String :=
  ["update_shot_prompt", "update_shot_narration", "update_shot_subtitles",
   "add_shot", "delete_shot", "reorder_shots", "update_script_settings"]

/-- `typeof v === "string"` for an argument-map access result. -/
def isStrArg : Option JSValue → Bool
  | some (.vstr _) => true
  | _ => false

/-- `typeof v === "boolean"` for an argument-map access result. -/
def isBoolArg : Option JSValue → Bool
  | some (.vbool _) => true
  | _ => false

/-- `Array.isArray(v)` for an argument-map access result. -/
def isArrArg : Option JSValue → Bool
  | some (.varr _) => true
  | _ => false

/-! ## Concrete sample data (used by witnesses and counterexamples) -/

def sampleShotA : Shot :=
  { id := "shot-a", title := "Intro", prompt := "sunrise over hills"
    narration := { enabled := true, text := "hello", audioSource := .video }
    video := { selectedUrl := none, history := [] }
    subtitles := false, duration := 8 }

def sampleShotB : Shot :=
  { id := "shot-b", title := "Middle", prompt := "city street"
    narration := { enabled := false, text := "", audioSource := .elevenlabs }
    video := { selectedUrl := some "u1", history := ["u0", "u1"] }
    subtitles := true, duration := 8 }

def sampleShotC : Shot :=
  { id := "shot-c", title := "Outro", prompt := "fade to black"
    narration := { enabled := true, text := "bye", audioSource := .video }
    video := { selectedUrl := none, history := [] }
    subtitles := false, duration := 8 }

def sampleSettings : ScriptSettings :=
  { narrationEnabled := true, subtitles := false
    globalPrompt := "cinematic", defaultAudio := .elevenlabs }

def sampleScript : Script :=
  { id := "script-1", title := "Demo", shots := [sampleShotA, sampleShotB, sampleShotC]
    settings := sampleSettings, createdAt := "t0", updatedAt := "t1" }

/-! ## Supporting lemmas -/

theorem shotMapGet_eq_some {shots : List Shot} {i : String} {s : Shot}
    (h : shotMapGet shots i = some s) : s ∈ shots ∧ s.id = i := by
  unfold shotMapGet at h
  have hm := List.mem_of_find?_eq_some h
  have hp := List.find?_some h
  exact ⟨List.mem_reverse.mp hm, by simpa using hp⟩

theorem shotMapGet_eq_none {shots : List Shot} {i : String}
    (h : shotMapGet shots i = none) : i ∉ shots.map Shot.id := by
  unfold shotMapGet at h
  rw [List.find?_eq_none] at h
  intro hmem
  rcases List.mem_map.mp hmem with ⟨s, hs, hid⟩
  exact absurd (by simp [hid]) (h s (List.mem_reverse.mpr hs))

theorem shotMapGet_isSome {shots : List Shot} {i : String}
    (h : i ∈ shots.map Shot.id) : ∃ s, shotMapGet shots i = some s := by
  cases hg : shotMapGet shots i with
  | some s => exact ⟨s, rfl⟩
  | none => exact absurd h (shotMapGet_eq_none hg)

theorem resolveShots_subset {shots : List Shot} {l : List JSValue} :
    ∀ s ∈ resolveShots shots l, s ∈ shots := by
  intro s hs
  rcases List.mem_filterMap.mp hs with ⟨i, _, hget⟩
  exact (shotMapGet_eq_some hget).1

/-- The ids of the resolved reorder list are exactly the string entries of the
argument filtered to the ids present in the script. -/
theorem resolveShots_map_id (shots : List Shot) (l : List JSValue) :
    (resolveShots shots l).map Shot.id
      = (stringIds l).filter (fun i => decide (i ∈ shots.map Shot.id)) := by
  unfold resolveShots
  induction stringIds l with
  | nil => rfl
  | cons i rest ih =>
    cases hg : shotMapGet shots i with
    | some s =>
      have hmem : i ∈ shots.map Shot.id := by
        rcases shotMapGet_eq_some hg with ⟨hs, hid⟩
        exact List.mem_map.mpr ⟨s, hs, hid⟩
      have hdec : decide (i ∈ shots.map Shot.id) = true := decide_eq_true hmem
      rw [List.filterMap_cons, hg, List.filter_cons, hdec, List.map_cons, ih,
        (shotMapGet_eq_some hg).2]
      simp only [if_true]
    | none =>
      have hmem := shotMapGet_eq_none hg
      have hdec : decide (i ∈ shots.map Shot.id) = false := decide_eq_false hmem
      rw [List.filterMap_cons, hg, List.filter_cons, hdec, ih]
      simp only [Bool.false_eq_true, if_false]

/-! ## C1 -/

/-- C1: `applyToolCall` is fail-soft.  An unrecognized tool name returns the
script value-equal to the input; for every recognized tool, a call whose
required argument is missing (`getArg` yields `none`, i.e. JavaScript
`undefined`) or has the wrong type returns the script unchanged.  The Lean
embedding is a total function, matching the source's no-throw contract. -/
theorem applyToolCall_fail_soft (fid : String) (S : Script) (N : String) (A : Args) :
    (N ∉ recognizedTools → applyToolCall fid S N A = S) ∧
    (isStrArg (getArg A "shotId") = false ∨ isStrArg (getArg A "prompt") = false →
      applyToolCall fid S "update_shot_prompt" A = S) ∧
    (isStrArg (getArg A "shotId") = false →
      applyToolCall fid S "update_shot_narration" A = S) ∧
    (isStrArg (getArg A "shotId") = false ∨ isBoolArg (getArg A "subtitles") = false →
      applyToolCall fid S "update_shot_subtitles" A = S) ∧
    (isStrArg (getArg A "title") = false ∨ isStrArg (getArg A "prompt") = false →
      applyToolCall fid S "add_shot" A = S) ∧
    (isStrArg (getArg A "shotId") = false →
      applyToolCall fid S "delete_shot" A = S) ∧
    (isArrArg (getArg A "shotIds") = false →
      applyToolCall fid S "reorder_shots" A = S) := by
  refine ⟨?_, ?_, ?_, ?_, ?_, ?_, ?_⟩
  · intro hN
    simp only [recognizedTools, List.mem_cons, List.not_mem_nil, or_false, not_or] at hN
    obtain ⟨h1, h2, h3, h4, h5, h6, h7⟩ := hN
    simp [applyToolCall, h1, h2, h3, h4, h5, h6, h7]
  all_goals
    intro h
    simp only [applyToolCall, String.reduceEq, reduceIte]
    split
    · simp_all [isStrArg, isBoolArg, isArrArg]
    · rfl

/-- Witness for C1: the fail-soft theorem applied at concrete inputs — an
unknown tool, and each recognized tool with a missing or mistyped required
argument. -/
theorem applyToolCall_fail_soft_witness :
    applyToolCall "f1" sampleScript "make_coffee" [] = sampleScript ∧
    applyToolCall "f1" sampleScript "update_shot_prompt" [("shotId", .vnum 3)] = sampleScript ∧
    applyToolCall "f1" sampleScript "update_shot_narration" [] = sampleScript ∧
    applyToolCall "f1" sampleScript "update_shot_subtitles" [("shotId", .vstr "shot-a")] = sampleScript ∧
    applyToolCall "f1" sampleScript "add_shot" [("title", .vstr "T")] = sampleScript ∧
    applyToolCall "f1" sampleScript "delete_shot" [("shotId", .vbool true)] = sampleScript ∧
    applyToolCall "f1" sampleScript "reorder_shots" [("shotIds", .vstr "shot-a")] = sampleScript :=
  ⟨(applyToolCall_fail_soft "f1" sampleScript "make_coffee" []).1 (by decide),
   (applyToolCall_fail_soft "f1" sampleScript "x" [("shotId", .vnum 3)]).2.1 (Or.inl rfl),
   (applyToolCall_fail_soft "f1" sampleScript "x" []).2.2.1 rfl,
   (applyToolCall_fail_soft "f1" sampleScript "x" [("shotId", .vstr "shot-a")]).2.2.2.1 (Or.inr rfl),
   (applyToolCall_fail_soft "f1" sampleScript "x" [("title", .vstr "T")]).2.2.2.2.1 (Or.inr rfl),
   (applyToolCall_fail_soft "f1" sampleScript "x" [("shotId", .vbool true)]).2.2.2.2.2.1 rfl,
   (applyToolCall_fail_soft "f1" sampleScript "x" [("shotIds", .vstr "shot-a")]).2.2.2.2.2.2 rfl⟩

/-! ## C10 -/

/-- C10: every tool call preserves the script's `id`, `title`, `createdAt` and
`updatedAt` (in particular `updatedAt` is never bumped), and every shot of the
output either carries an id that some input shot already had, or is the single
freshly generated shot of an `add_shot` call (its id is the generated one). -/
theorem applyToolCall_identity_invariant (fid : String) (S : Script) (N : String) (A : Args) :
    (applyToolCall fid S N A).id = S.id ∧
    (applyToolCall fid S N A).title = S.title ∧
    (applyToolCall fid S N A).createdAt = S.createdAt ∧
    (applyToolCall fid S N A).updatedAt = S.updatedAt ∧
    ∀ s ∈ (applyToolCall fid S N A).shots,
      s.id ∈ S.shots.map Shot.id ∨ (N = "add_shot" ∧ s.id = fid) := by
  unfold applyToolCall
  repeat' split
  all_goals refine ⟨rfl, rfl, rfl, rfl, fun s hs => ?_⟩
  all_goals
    first
    | exact Or.inl (List.mem_map.mpr ⟨s, hs, rfl⟩)
    | (rcases List.mem_map.mp hs with ⟨x, hx, rfl⟩
       exact Or.inl (List.mem_map.mpr ⟨x, hx, by split <;> rfl⟩))
    | exact Or.inl (List.mem_map.mpr ⟨s, (List.mem_filter.mp hs).1, rfl⟩)
    | exact Or.inl (List.mem_map.mpr ⟨s, resolveShots_subset s hs, rfl⟩)
    | (rcases List.mem_append.mp hs with h1 | h2
       · exact Or.inl (List.mem_map.mpr ⟨s, List.take_subset _ _ h1, rfl⟩)
       · rcases List.mem_cons.mp h2 with rfl | h3
         · refine Or.inr ⟨by assumption, rfl⟩
         · exact Or.inl (List.mem_map.mpr ⟨s, List.drop_subset _ _ h3, rfl⟩))
    | (rcases List.mem_append.mp hs with h1 | h2
       · exact Or.inl (List.mem_map.mpr ⟨s, h1, rfl⟩)
       · rcases List.mem_cons.mp h2 with rfl | h3
         · refine Or.inr ⟨by assumption, rfl⟩
         · exact absurd h3 (List.not_mem_nil s))

/-! ## C9 -/

/-- C9: on a script with shots `[A, B, C]`, `update_shot_prompt` targeting `B`
replaces only `B`'s prompt — `A` and `C` and every other script field (id,
title, settings, timestamps) are unchanged — and when no shot has the given id
the whole script is returned unchanged. -/
theorem update_shot_prompt_frame (fid : String) (S : Script) (A B C : Shot) (p sid : String)
    (hS : S.shots = [A, B, C]) (hA : A.id ≠ B.id) (hC : C.id ≠ B.id) :
    (applyToolCall fid S "update_shot_prompt" [("shotId", .vstr B.id), ("prompt", .vstr p)]).shots
        = [A, { B with prompt := p }, C] ∧
    (applyToolCall fid S "update_shot_prompt" [("shotId", .vstr B.id), ("prompt", .vstr p)]).id = S.id ∧
    (applyToolCall fid S "update_shot_prompt" [("shotId", .vstr B.id), ("prompt", .vstr p)]).title = S.title ∧
    (applyToolCall fid S "update_shot_prompt" [("shotId", .vstr B.id), ("prompt", .vstr p)]).settings = S.settings ∧
    (applyToolCall fid S "update_shot_prompt" [("shotId", .vstr B.id), ("prompt", .vstr p)]).createdAt = S.createdAt ∧
    (applyToolCall fid S "update_shot_prompt" [("shotId", .vstr B.id), ("prompt", .vstr p)]).updatedAt = S.updatedAt ∧
    ((∀ s ∈ S.shots, s.id ≠ sid) →
      applyToolCall fid S "update_shot_prompt" [("shotId", .vstr sid), ("prompt", .vstr p)] = S) := by
  refine ⟨?_, rfl, rfl, rfl, rfl, rfl, ?_⟩
  · simp [applyToolCall, getArg, hS, hA, hC]
  · intro h
    have hmap : S.shots.map
        (fun s => if s.id == sid then { s with prompt := p } else s) = S.shots := by
      conv_rhs => rw [← List.map_id S.shots]
      refine List.map_congr_left (fun s hs => ?_)
      simp [h s hs]
    have hev : applyToolCall fid S "update_shot_prompt" [("shotId", .vstr sid), ("prompt", .vstr p)]
        = { S with shots := S.shots.map (fun s => if s.id == sid then { s with prompt := p } else s) } := rfl
    rw [hev, hmap]

/-- Witness for C9: the frame theorem applied to the concrete sample script
(update shot-b's prompt; the no-match case uses an id no shot has). -/
theorem update_shot_prompt_frame_witness :
    (applyToolCall "f1" sampleScript "update_shot_prompt" [("shotId", JSValue.vstr sampleShotB.id), ("prompt", JSValue.vstr "new")]).shots = [sampleShotA, { sampleShotB with prompt := "new" }, sampleShotC] ∧
    (∀ s ∈ sampleScript.shots, s.id ≠ "ghost") ∧
    applyToolCall "f1" sampleScript "update_shot_prompt" [("shotId", JSValue.vstr "ghost"), ("prompt", JSValue.vstr "new")] = sampleScript :=
  ⟨(update_shot_prompt_frame "f1" sampleScript sampleShotA sampleShotB sampleShotC "new" "ghost" rfl (by decide) (by decide)).1,
   by decide,
   (update_shot_prompt_frame "f1" sampleScript sampleShotA sampleShotB sampleShotC "new" "ghost" rfl (by decide) (by decide)).2.2.2.2.2.2 (by decide)⟩

/-! ## C2 -/

/-- C2: if a `reorder_shots` call changes the script, the resulting shot count
equals the original count and the resulting order is exactly the string ids of
`L` filtered to those present in the script; and whenever the resolved count
differs from the script's shot count the call returns the script unchanged. -/
theorem reorder_shots_exact (fid : String) (S : Script) (L : List JSValue) :
    (applyToolCall fid S "reorder_shots" [("shotIds", .varr L)] ≠ S →
      (applyToolCall fid S "reorder_shots" [("shotIds", .varr L)]).shots.length = S.shots.length ∧
      (applyToolCall fid S "reorder_shots" [("shotIds", .varr L)]).shots.map Shot.id
        = (stringIds L).filter (fun i => decide (i ∈ S.shots.map Shot.id))) ∧
    ((resolveShots S.shots L).length ≠ S.shots.length →
      applyToolCall fid S "reorder_shots" [("shotIds", .varr L)] = S) := by
  have hev : applyToolCall fid S "reorder_shots" [("shotIds", .varr L)]
      = if (resolveShots S.shots L).length = S.shots.length then { S with shots := resolveShots S.shots L } else S := rfl
  constructor
  · intro hne
    by_cases hlen : (resolveShots S.shots L).length = S.shots.length
    · rw [hev, if_pos hlen]
      exact ⟨hlen, resolveShots_map_id S.shots L⟩
    · rw [hev, if_neg hlen] at hne
      exact absurd rfl hne
  · intro hlen
    rw [hev, if_neg hlen]

/-- Witness for C2: reversing the three sample shots changes the script and
yields exactly the requested order; a one-element list is rejected as a no-op. -/
theorem reorder_shots_exact_witness :
    (applyToolCall "f1" sampleScript "reorder_shots" [("shotIds", JSValue.varr [JSValue.vstr "shot-c", JSValue.vstr "shot-a", JSValue.vstr "shot-b"])]).shots.length = sampleScript.shots.length ∧
    (applyToolCall "f1" sampleScript "reorder_shots" [("shotIds", JSValue.varr [JSValue.vstr "shot-c", JSValue.vstr "shot-a", JSValue.vstr "shot-b"])]).shots.map Shot.id
      = (stringIds [JSValue.vstr "shot-c", JSValue.vstr "shot-a", JSValue.vstr "shot-b"]).filter (fun i => decide (i ∈ sampleScript.shots.map Shot.id)) ∧
    applyToolCall "f1" sampleScript "reorder_shots" [("shotIds", JSValue.varr [JSValue.vstr "shot-a"])] = sampleScript :=
  ⟨((reorder_shots_exact "f1" sampleScript [JSValue.vstr "shot-c", JSValue.vstr "shot-a", JSValue.vstr "shot-b"]).1 (by decide)).1,
   ((reorder_shots_exact "f1" sampleScript [JSValue.vstr "shot-c", JSValue.vstr "shot-a", JSValue.vstr "shot-b"]).1 (by decide)).2,
   (reorder_shots_exact "f1" sampleScript [JSValue.vstr "shot-a"]).2 (by decide)⟩

/-! ## C3 -/

/-- C3 (bug evidence): the code's length check accepts a `shotIds` list that
repeats one id and omits another — on the sample script (shots
`[shot-a, shot-b, shot-c]`), `reorder_shots` with
`shotIds = ["shot-a", "shot-a", "shot-b"]` resolves to 3 entries, passes the
`reordered.length !== script.shots.length` guard, and returns shots
`[shot-a, shot-a, shot-b]`: shot-c is silently dropped and shot-a duplicated,
contrary to the source comment "Only accept if all existing shots are
accounted for (prevent data loss)". -/
theorem reorder_shots_data_loss :
    (applyToolCall "f1" sampleScript "reorder_shots" [("shotIds", JSValue.varr [JSValue.vstr "shot-a", JSValue.vstr "shot-a", JSValue.vstr "shot-b"])]).shots = [sampleShotA, sampleShotA, sampleShotB] ∧
    applyToolCall "f1" sampleScript "reorder_shots" [("shotIds", JSValue.varr [JSValue.vstr "shot-a", JSValue.vstr "shot-a", JSValue.vstr "shot-b"])] ≠ sampleScript ∧
    sampleShotC ∈ sampleScript.shots ∧
    sampleShotC ∉ (applyToolCall "f1" sampleScript "reorder_shots" [("shotIds", JSValue.varr [JSValue.vstr "shot-a", JSValue.vstr "shot-a", JSValue.vstr "shot-b"])]).shots := by
  decide

/-! ## C4 -/

/-- C4: a well-typed `add_shot` call appends exactly one new shot whose
narration-enabled flag, audio source and subtitles flag mirror the script-level
settings and whose duration is the configured default (8); the shot is placed
immediately after the shot found for `afterShotId` when one exists, and
appended at the end when `afterShotId` is absent or matches no shot. -/
theorem add_shot_defaults_and_position (fid : String) (S : Script) (A : Args) (t p : String)
    (ht : getArg A "title" = some (.vstr t)) (hp : getArg A "prompt" = some (.vstr p)) :
    (makeShot fid t p S).narration.enabled = S.settings.narrationEnabled ∧
    (makeShot fid t p S).narration.audioSource = S.settings.defaultAudio ∧
    (makeShot fid t p S).subtitles = S.settings.subtitles ∧
    (makeShot fid t p S).duration = DEFAULT_VIDEO_DURATION ∧
    DEFAULT_VIDEO_DURATION = 8 ∧
    (∀ aid idx, getArg A "afterShotId" = some (.vstr aid) →
      S.shots.findIdx? (fun s => s.id == aid) = some idx →
      (applyToolCall fid S "add_shot" A).shots
        = S.shots.take (idx + 1) ++ makeShot fid t p S :: S.shots.drop (idx + 1)) ∧
    (∀ aid, getArg A "afterShotId" = some (.vstr aid) →
      S.shots.findIdx? (fun s => s.id == aid) = none →
      (applyToolCall fid S "add_shot" A).shots = S.shots ++ [makeShot fid t p S]) ∧
    (isStrArg (getArg A "afterShotId") = false →
      (applyToolCall fid S "add_shot" A).shots = S.shots ++ [makeShot fid t p S]) ∧
    (applyToolCall fid S "add_shot" A).shots.length = S.shots.length + 1 := by
  refine ⟨rfl, rfl, rfl, rfl, rfl, ?_, ?_, ?_, ?_⟩
  · intro aid idx haid hidx
    simp only [applyToolCall, String.reduceEq, reduceIte, ht, hp, haid, hidx]
  · intro aid haid hidx
    simp only [applyToolCall, String.reduceEq, reduceIte, ht, hp, haid, hidx]
  · intro hno
    rcases hv : getArg A "afterShotId" with _ | v
    · simp only [applyToolCall, String.reduceEq, reduceIte, ht, hp, hv]
    · cases v with
      | vstr aid => rw [hv] at hno; exact absurd hno (by simp [isStrArg])
      | vbool b => simp only [applyToolCall, String.reduceEq, reduceIte, ht, hp, hv]
      | vnum k => simp only [applyToolCall, String.reduceEq, reduceIte, ht, hp, hv]
      | varr l => simp only [applyToolCall, String.reduceEq, reduceIte, ht, hp, hv]
      | vnull => simp only [applyToolCall, String.reduceEq, reduceIte, ht, hp, hv]
  · rcases hv : getArg A "afterShotId" with _ | v
    · simp only [applyToolCall, String.reduceEq, reduceIte, ht, hp, hv]
      simp
    · cases v with
      | vstr aid =>
        cases hidx : S.shots.findIdx? (fun s => s.id == aid) with
        | some idx =>
          simp only [applyToolCall, String.reduceEq, reduceIte, ht, hp, hv, hidx]
          simp only [List.length_append, List.length_take, List.length_cons, List.length_drop]
          omega
        | none =>
          simp only [applyToolCall, String.reduceEq, reduceIte, ht, hp, hv, hidx]
          simp
      | vbool b =>
        simp only [applyToolCall, String.reduceEq, reduceIte, ht, hp, hv]
        simp
      | vnum k =>
        simp only [applyToolCall, String.reduceEq, reduceIte, ht, hp, hv]
        simp
      | varr l =>
        simp only [applyToolCall, String.reduceEq, reduceIte, ht, hp, hv]
        simp
      | vnull =>
        simp only [applyToolCall, String.reduceEq, reduceIte, ht, hp, hv]
        simp

def addArgsAfterA : Args :=
  [("title", .vstr "Epilogue"), ("prompt", .vstr "closing"), ("afterShotId", .vstr "shot-a")]

def addArgsGhost : Args :=
  [("title", .vstr "Epilogue"), ("prompt", .vstr "closing"), ("afterShotId", .vstr "ghost")]

def addArgsNoAfter : Args :=
  [("title", .vstr "Epilogue"), ("prompt", .vstr "closing")]

/-- Witness for C4: adding a shot after `shot-a` inserts at position 1, an
unmatched `afterShotId` appends, and an absent one appends. -/
theorem add_shot_defaults_and_position_witness :
    (makeShot "fresh-1" "Epilogue" "closing" sampleScript).narration.enabled = sampleScript.settings.narrationEnabled ∧
    (makeShot "fresh-1" "Epilogue" "closing" sampleScript).narration.audioSource = sampleScript.settings.defaultAudio ∧
    (makeShot "fresh-1" "Epilogue" "closing" sampleScript).duration = 8 ∧
    (applyToolCall "fresh-1" sampleScript "add_shot" addArgsAfterA).shots
      = sampleScript.shots.take 1 ++ makeShot "fresh-1" "Epilogue" "closing" sampleScript :: sampleScript.shots.drop 1 ∧
    (applyToolCall "fresh-1" sampleScript "add_shot" addArgsGhost).shots
      = sampleScript.shots ++ [makeShot "fresh-1" "Epilogue" "closing" sampleScript] ∧
    (applyToolCall "fresh-1" sampleScript "add_shot" addArgsNoAfter).shots
      = sampleScript.shots ++ [makeShot "fresh-1" "Epilogue" "closing" sampleScript] ∧
    (applyToolCall "fresh-1" sampleScript "add_shot" addArgsAfterA).shots.length = sampleScript.shots.length + 1 :=
  ⟨(add_shot_defaults_and_position "fresh-1" sampleScript addArgsAfterA "Epilogue" "closing" rfl rfl).1,
   (add_shot_defaults_and_position "fresh-1" sampleScript addArgsAfterA "Epilogue" "closing" rfl rfl).2.1,
   by rw [(add_shot_defaults_and_position "fresh-1" sampleScript addArgsAfterA "Epilogue" "closing" rfl rfl).2.2.2.1]
      exact (add_shot_defaults_and_position "fresh-1" sampleScript addArgsAfterA "Epilogue" "closing" rfl rfl).2.2.2.2.1,
   (add_shot_defaults_and_position "fresh-1" sampleScript addArgsAfterA "Epilogue" "closing" rfl rfl).2.2.2.2.2.1 "shot-a" 0 rfl (by decide),
   (add_shot_defaults_and_position "fresh-1" sampleScript addArgsGhost "Epilogue" "closing" rfl rfl).2.2.2.2.2.2.1 "ghost" rfl (by decide),
   (add_shot_defaults_and_position "fresh-1" sampleScript addArgsNoAfter "Epilogue" "closing" rfl rfl).2.2.2.2.2.2.2.1 rfl,
   (add_shot_defaults_and_position "fresh-1" sampleScript addArgsAfterA "Epilogue" "closing" rfl rfl).2.2.2.2.2.2.2.2⟩

/-! ## C5 -/

theorem mergeNarration_enabled_unchanged {n : Narration} {e t a : Option JSValue}
    (h : isBoolArg e = false) : (mergeNarration n e t a).enabled = n.enabled := by
  rcases e with _ | v
  · rfl
  · cases v <;> first | rfl | simp [isBoolArg] at h

theorem mergeNarration_text_unchanged {n : Narration} {e t a : Option JSValue}
    (h : isStrArg t = false) : (mergeNarration n e t a).text = n.text := by
  rcases t with _ | v
  · rfl
  · cases v <;> first | rfl | simp [isStrArg] at h

theorem mergeNarration_audio_unchanged {n : Narration} {e t a : Option JSValue}
    (h1 : a ≠ some (.vstr "video")) (h2 : a ≠ some (.vstr "elevenlabs")) :
    (mergeNarration n e t a).audioSource = n.audioSource := by
  unfold mergeNarration
  dsimp only
  split
  · exact absurd rfl h1
  · exact absurd rfl h2
  · rfl

/-- C5: for a shot matching the string `shotId`, `update_shot_narration`
merges exactly the optional fields that are present with the correct type
(`enabled` boolean, `text` string, `audioSource` one of the two literals);
each absent or mistyped optional field leaves its narration field unchanged
while the well-typed ones in the same call are still applied, and all
non-narration fields and non-matching shots are untouched. -/
theorem update_shot_narration_merge (fid : String) (S : Script) (A : Args) (sid : String)
    (h : getArg A "shotId" = some (.vstr sid)) :
    List.Forall₂ (fun s r =>
      (s.id ≠ sid → r = s) ∧
      (s.id = sid →
        r.id = s.id ∧ r.title = s.title ∧ r.prompt = s.prompt ∧ r.video = s.video ∧
        r.subtitles = s.subtitles ∧ r.duration = s.duration ∧
        (∀ b, getArg A "enabled" = some (.vbool b) → r.narration.enabled = b) ∧
        (isBoolArg (getArg A "enabled") = false → r.narration.enabled = s.narration.enabled) ∧
        (∀ tx, getArg A "text" = some (.vstr tx) → r.narration.text = tx) ∧
        (isStrArg (getArg A "text") = false → r.narration.text = s.narration.text) ∧
        (getArg A "audioSource" = some (.vstr "video") → r.narration.audioSource = .video) ∧
        (getArg A "audioSource" = some (.vstr "elevenlabs") → r.narration.audioSource = .elevenlabs) ∧
        (getArg A "audioSource" ≠ some (.vstr "video") →
          getArg A "audioSource" ≠ some (.vstr "elevenlabs") →
          r.narration.audioSource = s.narration.audioSource)))
      S.shots (applyToolCall fid S "update_shot_narration" A).shots := by
  simp only [applyToolCall, String.reduceEq, reduceIte, h]
  rw [List.forall₂_map_right_iff]
  rw [List.forall₂_same]
  intro s hs
  constructor
  · intro hne
    rw [if_neg (by simpa using hne)]
  · intro hid
    rw [if_pos (by simpa using hid)]
    refine ⟨rfl, rfl, rfl, rfl, rfl, rfl, ?_, ?_, ?_, ?_, ?_, ?_, ?_⟩
    · intro b hb; simp [mergeNarration, hb]
    · intro hb; exact mergeNarration_enabled_unchanged hb
    · intro tx htx; simp [mergeNarration, htx]
    · intro htx; exact mergeNarration_text_unchanged htx
    · intro ha; simp [mergeNarration, ha]
    · intro ha; simp [mergeNarration, ha]
    · intro h1 h2; exact mergeNarration_audio_unchanged h1 h2

/-- Witness for C5: a call on the sample script carrying a well-typed `text`,
a mistyped `enabled` and no `audioSource` updates only the text of shot-a. -/
theorem update_shot_narration_merge_witness :
    List.Forall₂ (fun s r =>
      (s.id ≠ "shot-a" → r = s) ∧
      (s.id = "shot-a" →
        r.id = s.id ∧ r.title = s.title ∧ r.prompt = s.prompt ∧ r.video = s.video ∧
        r.subtitles = s.subtitles ∧ r.duration = s.duration ∧
        (∀ b, getArg [("shotId", JSValue.vstr "shot-a"), ("enabled", JSValue.vnum 1), ("text", JSValue.vstr "updated")] "enabled" = some (.vbool b) → r.narration.enabled = b) ∧
        (isBoolArg (getArg [("shotId", JSValue.vstr "shot-a"), ("enabled", JSValue.vnum 1), ("text", JSValue.vstr "updated")] "enabled") = false → r.narration.enabled = s.narration.enabled) ∧
        (∀ tx, getArg [("shotId", JSValue.vstr "shot-a"), ("enabled", JSValue.vnum 1), ("text", JSValue.vstr "updated")] "text" = some (.vstr tx) → r.narration.text = tx) ∧
        (isStrArg (getArg [("shotId", JSValue.vstr "shot-a"), ("enabled", JSValue.vnum 1), ("text", JSValue.vstr "updated")] "text") = false → r.narration.text = s.narration.text) ∧
        (getArg [("shotId", JSValue.vstr "shot-a"), ("enabled", JSValue.vnum 1), ("text", JSValue.vstr "updated")] "audioSource" = some (.vstr "video") → r.narration.audioSource = .video) ∧
        (getArg [("shotId", JSValue.vstr "shot-a"), ("enabled", JSValue.vnum 1), ("text", JSValue.vstr "updated")] "audioSource" = some (.vstr "elevenlabs") → r.narration.audioSource = .elevenlabs) ∧
        (getArg [("shotId", JSValue.vstr "shot-a"), ("enabled", JSValue.vnum 1), ("text", JSValue.vstr "updated")] "audioSource" ≠ some (.vstr "video") →
          getArg [("shotId", JSValue.vstr "shot-a"), ("enabled", JSValue.vnum 1), ("text", JSValue.vstr "updated")] "audioSource" ≠ some (.vstr "elevenlabs") →
          r.narration.audioSource = s.narration.audioSource)))
      sampleScript.shots
      (applyToolCall "f1" sampleScript "update_shot_narration" [("shotId", JSValue.vstr "shot-a"), ("enabled", JSValue.vnum 1), ("text", JSValue.vstr "updated")]).shots :=
  update_shot_narration_merge "f1" sampleScript
    [("shotId", JSValue.vstr "shot-a"), ("enabled", JSValue.vnum 1), ("text", JSValue.vstr "updated")]
    "shot-a" rfl

/-! ## Storage layer and message tree

The storage-service implementation file is not among the sources at hand (only
its callers, its type shapes and its tests are), so the definitions below are
modelled from the specification, §4.3 "Conversation/Version Tree Manager" and
§4.4 "Storage Layer (shared contract)". -/

/-- Modelled from the spec: the persisted `Message` record shape
`{id, role, content, parentId, title?, style?, commentary?, lyricsBody?,
duration?, createdAt, deleted}`. -/
structure Message where
  id : String
  role : String
  content : String
  parentId : Option String
  title : Option String
  style : Option String
  commentary : Option String
  lyricsBody : Option String
  duration : Option Nat
  createdAt : Nat
  deleted : Bool
deriving DecidableEq, Repr

/-- Modelled from the spec: the persisted `Song` record shape
`{id, messageId, title, audioUrl, pinned, deleted, createdAt}`. -/
structure Song where
  id : String
  messageId : String
  title : String
  audioUrl : String
  pinned : Bool
  deleted : Bool
  createdAt : Nat
deriving DecidableEq, Repr

/-- Modelled from the spec: the storage layer's collections (messages, songs,
scripts, …), the state that `export()` / `import(snapshot)` round-trip. -/
structure StorageState where
  messages : List Message
  songs : List Song
  scripts : List Script
deriving DecidableEq, Repr

/-- Modelled from the spec: the atomic snapshot object containing all
collections that `export()` produces and `import` consumes. -/
structure StorageSnapshot where
  messages : List Message
  songs : List Song
  scripts : List Script
deriving DecidableEq, Repr

def emptyStorage : StorageState :=
  { messages := [], songs := [], scripts := [] }

/-- Modelled from the spec: `export()` — one atomic snapshot of all
collections, soft-deleted rows included (never dropped). -/
def exportAll (s : StorageState) : StorageSnapshot :=
  { messages := s.messages, songs := s.songs, scripts := s.scripts }

/-- Modelled from the spec: `import(snapshot)` — fully replaces the
corresponding collections (not a merge), soft-deleted rows included. -/
def importAll (snap : StorageSnapshot) (_s : StorageState) : StorageState :=
  { messages := snap.messages, songs := snap.songs, scripts := snap.scripts }

/-- The argument object of `createMessage` (role, content, parentId and the
optional lyrics fields spread in by the caller). -/
structure MessageInput where
  role : String
  content : String
  parentId : Option String
  title : Option String
  style : Option String
  commentary : Option String
  lyricsBody : Option String
deriving DecidableEq, Repr

/-- Modelled from the spec: `createMessage` persists a new `Message` with a
fresh id and current timestamp and returns it.  The fresh id and the timestamp
are impure in the source and are passed explicitly here. -/
def createMessage (s : StorageState) (newId : String) (now : Nat) (inp : MessageInput) :
    Message × StorageState :=
  let m : Message :=
    { id := newId, role := inp.role, content := inp.content, parentId := inp.parentId
      title := inp.title, style := inp.style, commentary := inp.commentary
      lyricsBody := inp.lyricsBody, duration := none, createdAt := now, deleted := false }
  (m, { s with messages := s.messages ++ [m] })

/-- Modelled from the spec: `getMessage(id)` — single lookup, `none` when the
id is absent (soft-deleted messages remain retrievable). -/
def getMessage (s : StorageState) (id : String) : Option Message :=
  s.messages.find? (fun m => m.id == id)

/-- The ancestor walk: follow `parentId` back-references up to the root and
return the path root-first.  The walk is bounded by fuel (the spec prescribes
a depth guard against accidental cycles); `getAncestors` supplies enough fuel
for every acyclic storage state. -/
def ancestorsAux (s : StorageState) : Nat → String → List Message
  | 0, _ => []
  | fuel + 1, id =>
    match getMessage s id with
    | none => []
    | some m =>
      match m.parentId with
      | none => [m]
      | some pid => ancestorsAux s fuel pid ++ [m]

/-- Modelled from the spec: `getAncestors(id)` — the ordered sequence from the
forest root down to and including the message `id` (root-first); the empty
sequence when `id` does not exist. -/
def getAncestors (s : StorageState) (id : String) : List Message :=
  ancestorsAux s s.messages.length id

/-! ## C6 -/

/-- C6: `import(export())` on any non-empty storage state is the identity —
every collection is byte-for-byte equal to the pre-export state, and in
particular the soft-delete flags of all rows (deleted rows included) are
preserved unchanged. -/
theorem export_import_round_trip (s : StorageState) (_h : s ≠ emptyStorage) :
    importAll (exportAll s) s = s ∧
    (importAll (exportAll s) s).messages.map Message.deleted = s.messages.map Message.deleted ∧
    (importAll (exportAll s) s).songs.map Song.deleted = s.songs.map Song.deleted ∧
    (importAll (exportAll s) s).scripts = s.scripts :=
  ⟨rfl, rfl, rfl, rfl⟩

def sampleMessageRoot : Message :=
  { id := "m1", role := "user", content := "write a song about rain", parentId := none
    title := none, style := none, commentary := none, lyricsBody := none
    duration := none, createdAt := 1, deleted := false }

def sampleMessageDeleted : Message :=
  { id := "m2", role := "assistant", content := "raw response", parentId := some "m1"
    title := some "Rain", style := some "folk", commentary := some "soft"
    lyricsBody := some "drip drop", duration := some 185, createdAt := 2, deleted := true }

def sampleSong : Song :=
  { id := "s1", messageId := "m2", title := "Rain", audioUrl := "https://cdn/a.mp3"
    pinned := true, deleted := true, createdAt := 3 }

def sampleStorage : StorageState :=
  { messages := [sampleMessageRoot, sampleMessageDeleted]
    songs := [sampleSong], scripts := [sampleScript] }

/-- Witness for C6: the round trip applied to a concrete non-empty state that
contains a soft-deleted message and a soft-deleted song. -/
theorem export_import_round_trip_witness :
    sampleStorage ≠ emptyStorage ∧
    importAll (exportAll sampleStorage) sampleStorage = sampleStorage ∧
    (importAll (exportAll sampleStorage) sampleStorage).messages.map Message.deleted
      = sampleStorage.messages.map Message.deleted :=
  ⟨by decide, (export_import_round_trip sampleStorage (by decide)).1,
   (export_import_round_trip sampleStorage (by decide)).2.1⟩

/-! ## C7 -/

/-- The `createMessage` input used for a plain user chain message. -/
def chainInput (content : String) (prev : Option String) : MessageInput :=
  { role := "user", content := content, parentId := prev
    title := none, style := none, commentary := none, lyricsBody := none }

/-- Sequential `createMessage` calls: each list entry `(id, content)` is
persisted with `parentId` referencing the previously created message. -/
def buildChain : StorageState → Option String → List (String × String) → StorageState
  | s, _, [] => s
  | s, prev, (i, c) :: rest => buildChain (createMessage s i 0 (chainInput c prev)).2 (some i) rest

/-- The messages returned by the sequential `createMessage` calls of
`buildChain`, in creation order. -/
def mkChainMsgs : Option String → List (String × String) → List Message
  | _, [] => []
  | prev, (i, c) :: rest =>
    (createMessage emptyStorage i 0 (chainInput c prev)).1 :: mkChainMsgs (some i) rest

/-- `chainFrom s prev ms`: the messages `ms` form a parent-linked chain inside
state `s`, the first one's parent being `prev`. -/
def chainFrom (s : StorageState) : Option String → List Message → Prop
  | _, [] => True
  | prev, m :: rest => getMessage s m.id = some m ∧ m.parentId = prev ∧ chainFrom s (some m.id) rest

theorem buildChain_messages (items : List (String × String)) :
    ∀ (s : StorageState) (prev : Option String),
      (buildChain s prev items).messages = s.messages ++ mkChainMsgs prev items := by
  induction items with
  | nil => intro s prev; simp [buildChain, mkChainMsgs]
  | cons hd rest ih =>
    intro s prev
    obtain ⟨i, c⟩ := hd
    simp only [buildChain, mkChainMsgs, ih, createMessage]
    simp [List.append_assoc]

theorem mkChainMsgs_map_id (items : List (String × String)) :
    ∀ prev, (mkChainMsgs prev items).map Message.id = items.map Prod.fst := by
  induction items with
  | nil => intro prev; rfl
  | cons hd rest ih =>
    intro prev
    obtain ⟨i, c⟩ := hd
    simp only [mkChainMsgs, List.map_cons, ih]
    rfl

theorem find?_append_of_none {α : Type} (p : α → Bool) (l₁ l₂ : List α)
    (h : l₁.find? p = none) : (l₁ ++ l₂).find? p = l₂.find? p := by
  rw [List.find?_append, h, Option.none_or]

theorem find?_id_eq_some_of_nodup (l : List Message) (m : Message)
    (hnd : (l.map Message.id).Nodup) (hm : m ∈ l) :
    l.find? (fun x => x.id == m.id) = some m := by
  induction l with
  | nil => cases hm
  | cons hd tl ih =>
    rw [List.map_cons, List.nodup_cons] at hnd
    rcases List.mem_cons.mp hm with rfl | hmem
    · exact List.find?_cons_of_pos tl (by simp)
    · have hne : hd.id ≠ m.id := by
        intro he
        exact hnd.1 (he ▸ List.mem_map.mpr ⟨m, hmem, rfl⟩)
      rw [List.find?_cons_of_neg tl (by simp [hne])]
      exact ih hnd.2 hmem

theorem chainFrom_of_lookup (s : StorageState) :
    ∀ (items : List (String × String)) (prev : Option String),
      (∀ m ∈ mkChainMsgs prev items, getMessage s m.id = some m) →
      chainFrom s prev (mkChainMsgs prev items) := by
  intro items
  induction items with
  | nil => intro prev _; trivial
  | cons hd rest ih =>
    intro prev h
    obtain ⟨i, c⟩ := hd
    refine ⟨h _ (by simp [mkChainMsgs]), rfl, ?_⟩
    exact ih (some i) (fun m hm => h m (by simp [mkChainMsgs]; exact Or.inr hm))

theorem chainFrom_append (s : StorageState) :
    ∀ (xs : List Message) (prev : Option String) (m : Message),
      chainFrom s prev (xs ++ [m]) →
      chainFrom s prev xs ∧ getMessage s m.id = some m ∧
        m.parentId = (match xs.getLast? with | none => prev | some x => some x.id) := by
  intro xs
  induction xs with
  | nil =>
    intro prev m h
    exact ⟨trivial, h.1, h.2.1⟩
  | cons hd tl ih =>
    intro prev m h
    obtain ⟨h1, h2, h3⟩ := h
    obtain ⟨c1, c2, c3⟩ := ih (some hd.id) m h3
    refine ⟨⟨h1, h2, c1⟩, c2, ?_⟩
    cases tl with
    | nil => simpa using c3
    | cons a t => rw [List.getLast?_cons_cons]; exact c3

theorem ancestorsAux_chain (s : StorageState) :
    ∀ (ms : List Message), chainFrom s none ms → ∀ (fuel : Nat), ms.length ≤ fuel →
      ∀ h : ms ≠ [], ancestorsAux s fuel (ms.getLast h).id = ms := by
  intro ms
  induction ms using List.reverseRecOn with
  | nil => intro _ fuel _ h; exact absurd rfl h
  | append_singleton xs m ih =>
    intro hchain fuel hfuel h
    obtain ⟨hxs, hget, hparent⟩ := chainFrom_append s xs none m hchain
    cases fuel with
    | zero => simp [List.length_append] at hfuel
    | succ f =>
      have hlast : ((xs ++ [m]).getLast h) = m := by
        rw [List.getLast_append]
        simp
      rw [hlast]
      show ancestorsAux s (f + 1) m.id = xs ++ [m]
      simp only [ancestorsAux, hget]
      cases xs with
      | nil =>
        have hp : m.parentId = none := by simpa using hparent
        simp [hp]
      | cons a t =>
        have hne : (a :: t : List Message) ≠ [] := by simp
        have hp : m.parentId = some (((a :: t).getLast hne).id) := by
          rw [hparent, List.getLast?_eq_getLast (a :: t) hne]
        rw [hp]
        have hfuel2 : (a :: t : List Message).length ≤ f := by
          simp only [List.length_append, List.length_singleton] at hfuel
          omega
        dsimp only
        rw [ih hxs f hfuel2 hne]

/-- C7: for a chain of messages built by sequential `createMessage` calls —
each entry's `parentId` referencing the previously created message, the first
having `parentId` null — `getAncestors` of the last created id returns exactly
the created messages in creation order (root first); and for any id that does
not exist in storage, `getAncestors` returns the empty sequence instead of
failing.  The freshness of the generated ids is expressed by the `Nodup` and
non-collision hypotheses. -/
theorem create_message_chain_ancestors :
    (∀ (s0 : StorageState) (items : List (String × String)) (hne : items ≠ [])
       (hnd : (items.map Prod.fst).Nodup)
       (hfresh : ∀ i ∈ items.map Prod.fst, i ∉ s0.messages.map Message.id),
       getAncestors (buildChain s0 none items) (items.getLast hne).1 = mkChainMsgs none items) ∧
    (∀ (s : StorageState) (id : String), getMessage s id = none → getAncestors s id = []) := by
  constructor
  · intro s0 items hne hnd hfresh
    have hmsgs : (buildChain s0 none items).messages
        = s0.messages ++ mkChainMsgs none items := buildChain_messages items s0 none
    have hids : (mkChainMsgs none items).map Message.id = items.map Prod.fst :=
      mkChainMsgs_map_id items none
    have hlookup : ∀ m ∈ mkChainMsgs none items,
        getMessage (buildChain s0 none items) m.id = some m := by
      intro m hm
      have hmid : m.id ∈ items.map Prod.fst := hids ▸ List.mem_map.mpr ⟨m, hm, rfl⟩
      have hnot : s0.messages.find? (fun x => x.id == m.id) = none := by
        rw [List.find?_eq_none]
        intro x hx hbeq
        exact hfresh m.id hmid (List.mem_map.mpr ⟨x, hx, by simpa using hbeq⟩)
      unfold getMessage
      rw [hmsgs, find?_append_of_none _ _ _ hnot]
      exact find?_id_eq_some_of_nodup _ m (hids ▸ hnd) hm
    have hchain : chainFrom (buildChain s0 none items) none (mkChainMsgs none items) :=
      chainFrom_of_lookup _ items none hlookup
    have hne2 : mkChainMsgs none items ≠ [] := by
      cases items with
      | nil => exact absurd rfl hne
      | cons hd rest => obtain ⟨i, c⟩ := hd; simp [mkChainMsgs]
    have hlen : (mkChainMsgs none items).length ≤ (buildChain s0 none items).messages.length := by
      rw [hmsgs]
      simp
    have hanc := ancestorsAux_chain (buildChain s0 none items) (mkChainMsgs none items)
      hchain (buildChain s0 none items).messages.length hlen hne2
    have hlast : ((mkChainMsgs none items).getLast hne2).id = (items.getLast hne).1 := by
      have e1 : ((mkChainMsgs none items).map Message.id).getLast?
          = (items.map Prod.fst).getLast? := by rw [hids]
      rw [List.getLast?_map, List.getLast?_map,
        List.getLast?_eq_getLast _ hne2, List.getLast?_eq_getLast _ hne] at e1
      simpa using e1
    unfold getAncestors
    rw [← hlast]
    exact hanc
  · intro s id h
    unfold getAncestors
    cases hl : s.messages.length with
    | zero => rfl
    | succ k => simp [ancestorsAux, h]

/-- Witness for C7: a three-message chain built from the empty storage state,
and a lookup of a missing id on the sample storage. -/
theorem create_message_chain_ancestors_witness :
    ([("c1", "hello"), ("c2", "verse please"), ("c3", "another verse")].map Prod.fst).Nodup ∧
    getAncestors (buildChain emptyStorage none [("c1", "hello"), ("c2", "verse please"), ("c3", "another verse")]) "c3"
      = mkChainMsgs none [("c1", "hello"), ("c2", "verse please"), ("c3", "another verse")] ∧
    getMessage sampleStorage "no-such-id" = none ∧
    getAncestors sampleStorage "no-such-id" = [] :=
  ⟨by decide,
   (create_message_chain_ancestors.1 emptyStorage
      [("c1", "hello"), ("c2", "verse please"), ("c3", "another verse")]
      (by decide) (by decide) (by decide)),
   by decide,
   create_message_chain_ancestors.2 sampleStorage "no-such-id" (by decide)⟩

/-! ## C8 — lyrics response parsing (LyricsGenerator page)

`parseLyricsResponse` matches `/^---\n([\s\S]*?)\n---\n?([\s\S]*)$/`: the text
must start with `---\n`, the first (lazy) group runs to the earliest following
`\n---`, one optional newline is consumed greedily, the rest is the body.
The embedding works on `String.data` character lists. -/

/-- Split `l` at the earliest occurrence of the substring `pat`: returns the
part before the occurrence and the part after it (the lazy-group semantics of
the regex). -/
def splitAtSub (pat : List Char) : List Char → Option (List Char × List Char)
  | [] => if pat.isPrefixOf ([] : List Char) then some ([], []) else none
  | c :: rest =>
    if pat.isPrefixOf (c :: rest) then some ([], (c :: rest).drop pat.length)
    else (splitAtSub pat rest).map (fun pr => (c :: pr.1, pr.2))

/-- The frontmatter match of `parseLyricsResponse`: `none` when the text does
not have the `---\n … \n---` shape, otherwise the group-1 (frontmatter) and
group-2 (body) character lists. -/
def frontmatterSplit (text : String) : Option (List Char × List Char) :=
  if ("---\n".data).isPrefixOf text.data then
    match splitAtSub ("\n---".data) (text.data.drop 4) with
    | none => none
    | some (fm, rest) =>
      some (fm, match rest with
        | '\n' :: r => r
        | r => r)
  else none

/-- `String.prototype.trim()` on a character list. -/
def trimChars (l : List Char) : List Char :=
  ((l.dropWhile Char.isWhitespace).reverse.dropWhile Char.isWhitespace).reverse

/-- `extractField` of `parseLyricsResponse`: regex `^name:\s*"?([^"\n]+)"?` in
multiline mode over the frontmatter — the first line starting with `name:`,
its value with surrounding whitespace and an optional opening quote removed,
captured up to a closing quote, trimmed; `""` when no line matches (the
format's fields are single-line, which this embedding assumes). -/
def extractField (name : String) (fm : List Char) : String :=
  match (fm.splitOn '\n').find? (fun l => (name.data ++ [':']).isPrefixOf l) with
  | none => ""
  | some line =>
    let rest := (line.drop (name.data.length + 1)).dropWhile Char.isWhitespace
    let rest2 := match rest with
      | '"' :: r => r
      | r => r
    String.mk (trimChars (rest2.takeWhile (fun c => c ≠ '"')))

/-- The structured fields parsed from a lyrics response. -/
structure ParsedLyrics where
  title : String
  style : String
  commentary : String
  lyricsBody : String
deriving DecidableEq, Repr

/-- `parseLyricsResponse(text)`: `null` when the frontmatter shape is absent,
otherwise the extracted fields and the trimmed body. -/
def parseLyricsResponse (text : String) : Option ParsedLyrics :=
  match frontmatterSplit text with
  | none => none
  | some (fm, body) =>
    some { title := extractField "title" fm
           style := extractField "style" fm
           commentary := extractField "commentary" fm
           lyricsBody := String.mk (trimChars body) }

/-- The assistant `createMessage` argument object built in `handleSubmit`:
`{role: "assistant", content: responseText, parentId: userMsg.id,
...(parsed ?? {})}` — the spread contributes the lyrics fields only when
parsing succeeded. -/
def assistantMessageInput (responseText : String) (parentUserId : String) : MessageInput :=
  match parseLyricsResponse responseText with
  | none =>
    { role := "assistant", content := responseText, parentId := some parentUserId
      title := none, style := none, commentary := none, lyricsBody := none }
  | some p =>
    { role := "assistant", content := responseText, parentId := some parentUserId
      title := some p.title, style := some p.style, commentary := some p.commentary
      lyricsBody := some p.lyricsBody }

/-- C8: for a response text that does not match the frontmatter shape, the
parser returns no structured fields, and the assistant message is still
created with the raw response text as content and all lyrics fields absent;
the functions are total, so no error reaches the caller. -/
theorem unparseable_response_fail_soft (text : String) (uid : String)
    (h : frontmatterSplit text = none) :
    parseLyricsResponse text = none ∧
    (assistantMessageInput text uid).role = "assistant" ∧
    (assistantMessageInput text uid).content = text ∧
    (assistantMessageInput text uid).parentId = some uid ∧
    (assistantMessageInput text uid).title = none ∧
    (assistantMessageInput text uid).style = none ∧
    (assistantMessageInput text uid).commentary = none ∧
    (assistantMessageInput text uid).lyricsBody = none := by
  have hp : parseLyricsResponse text = none := by
    unfold parseLyricsResponse
    rw [h]
  refine ⟨hp, ?_, ?_, ?_, ?_, ?_, ?_, ?_⟩ <;> simp [assistantMessageInput, hp]

/-- Witness for C8: a plain-prose response without frontmatter. -/
theorem unparseable_response_fail_soft_witness :
    frontmatterSplit "Sure! What mood?" = none ∧
    parseLyricsResponse "Sure! What mood?" = none ∧
    (assistantMessageInput "Sure! What mood?" "m9").content = "Sure! What mood?" ∧
    (assistantMessageInput "Sure! What mood?" "m9").title = none ∧
    (assistantMessageInput "Sure! What mood?" "m9").lyricsBody = none :=
  ⟨by decide,
   (unparseable_response_fail_soft "Sure! What mood?" "m9" (by decide)).1,
   (unparseable_response_fail_soft "Sure! What mood?" "m9" (by decide)).2.2.1,
   (unparseable_response_fail_soft "Sure! What mood?" "m9" (by decide)).2.2.2.2.1,
   (unparseable_response_fail_soft "Sure! What mood?" "m9" (by decide)).2.2.2.2.2.2.2⟩

end AiStudio
